import Mathlib

/-!
Verification of the in-memory collection catalog (versioned, copy-on-write
snapshot engine with point-in-time reconstruction) described by the
repository's specification and declared in
src/mongo/db/catalog/collection_catalog.h.

The repository ships only the class declaration (with its documentation
comments) for CollectionCatalog; the member-function bodies are not part of
the provided sources.  Definitions below that embed such members are
therefore modelled from the specification text, as indicated by their doc
comments.  The inline members that do appear in the header
(ProfileSettings and its constructors) are translated directly from the
source.
-/

/-- Identifier abbreviations: `Timestamp` is the storage engine's 64-bit
logical clock, `RecordId` the opaque durable catalog id, `UUID` the stable
128-bit collection identity, `DatabaseName` a database name.  They are
modelled as natural numbers and strings. -/
abbrev Timestamp : Type := Nat

abbrev RecordId : Type := Nat

abbrev UUID : Type := Nat

abbrev DatabaseName : Type := String

/-- Largest representable timestamp, `Timestamp::max()` in the source; the
initial value of the maintained-window lower bound. -/
def timestampMax : Timestamp := 18446744073709551615

/-- Namespace: a `(database, collection)` pair, as in the spec's data model
(`Namespace = (DatabaseName, CollectionName)`). -/
structure NamespaceString where
  db : DatabaseName
  coll : String
deriving DecidableEq

/-- Collection descriptor as far as the verified claims need it: its stable
UUID, its current namespace and its durable catalog id. -/
structure Collection where
  uuid : UUID
  nss : NamespaceString
  catalogId : RecordId
deriving DecidableEq

/-- CatalogId with Timestamp (`CollectionCatalog::TimestampedCatalogId`):
`id = none` represents a drop at time `ts`. -/
structure TimestampedCatalogId where
  id : Option RecordId
  ts : Timestamp
deriving DecidableEq

/-- Existence verdict of a historical catalog-id lookup
(`CollectionCatalog::CatalogIdLookup::Existence`). -/
inductive Existence where
  | kExists
  | kNotExists
  | kUnknown
deriving DecidableEq

/-- Result of `lookupCatalogIdByNSS` / `lookupCatalogIdByUUID`
(`CollectionCatalog::CatalogIdLookup`).  The `id` is `some` exactly in the
`kExists` case. -/
structure CatalogIdLookup where
  id : Option RecordId
  result : Existence
deriving DecidableEq

/-- Error kinds of the catalog, from the specification's error-handling
design (section 7). -/
inductive ErrorCodes where
  | NamespaceNotFound
  | NamespaceExists
  | CatalogUnknownAtTimestamp
  | InvalidProfileLevel
  | WriteConflict
deriving DecidableEq

/-- Disjunctive namespace-or-UUID lookup key (`NamespaceStringOrUUID`): a
UUID variant carries the database name the caller expects the collection to
live in. -/
inductive NamespaceStringOrUUID where
  | byName (nss : NamespaceString)
  | byUUID (dbName : DatabaseName) (uuid : UUID)
deriving DecidableEq

/-- Per-database profile settings (`CollectionCatalog::ProfileSettings`),
translated from the header: an `int` level and a nullable filter (the
shared pointer is modelled by an optional tag). -/
structure ProfileSettings where
  level : Int
  filter : Option Nat
deriving DecidableEq

/-- Checking constructor `ProfileSettings(int level, shared_ptr filter)`
from the header: it invariants `0 <= level && level <= 2` (the
InvalidProfileLevel configuration error of the spec, detected at
construction) and stores both fields unchanged. -/
def ProfileSettings.make (level : Int) (filter : Option Nat) :
    Except ErrorCodes ProfileSettings :=
  if 0 ≤ level ∧ level ≤ 2 then Except.ok { level := level, filter := filter }
  else Except.error ErrorCodes.InvalidProfileLevel

/-- Defaulted constructor `ProfileSettings() = default` from the header: the
member `int level` has no initializer, so a default-constructed value holds
an indeterminate level.  The indeterminate contents are taken as a
parameter. -/
def ProfileSettings.defaultConstructed (indeterminateLevel : Int) : ProfileSettings :=
  { level := indeterminateLevel, filter := none }

/-- Pointwise update of a function-represented map. -/
def upd {α β : Type} [DecidableEq α] (m : α → β) (k : α) (v : β) : α → β :=
  fun x => if x = k then v else m x

/-- The collection catalog state, with the fields of the source class that
the verified claims touch (underscore prefixes dropped): `catalog` is the
primary UUID map, `collections` the namespace map, `orderedCollections` the
`(database, UUID)`-keyed map supporting per-database iteration,
`pendingCommitNamespaces` / `pendingCommitUUIDs` the two-phase DDL overlay,
`nssCatalogIds` / `uuidCatalogIds` the time-indexed catalog-id histories,
`oldestCatalogIdTimestampMaintained` the lower bound of the maintained
history window, `epoch` the close/open counter and `shadowCatalog` the
UUID-to-namespace table captured while the catalog is closed. -/
structure CollectionCatalog where
  catalog : UUID → Option Collection
  collections : NamespaceString → Option Collection
  orderedCollections : List ((DatabaseName × UUID) × Collection)
  pendingCommitNamespaces : NamespaceString → Option Collection
  pendingCommitUUIDs : UUID → Option Collection
  nssCatalogIds : NamespaceString → List TimestampedCatalogId
  uuidCatalogIds : UUID → List TimestampedCatalogId
  oldestCatalogIdTimestampMaintained : Timestamp
  epoch : Nat
  shadowCatalog : Option (UUID → Option NamespaceString)

/-- Catalog with no collections, no history and no shadow; the maintained
window starts at `Timestamp::max()` as in the source's field initializer. -/
def emptyCatalog : CollectionCatalog where
  catalog := fun _ => none
  collections := fun _ => none
  orderedCollections := []
  pendingCommitNamespaces := fun _ => none
  pendingCommitUUIDs := fun _ => none
  nssCatalogIds := fun _ => []
  uuidCatalogIds := fun _ => []
  oldestCatalogIdTimestampMaintained := timestampMax
  epoch := 0
  shadowCatalog := none

/-- Last (and, on a sorted vector, greatest) entry with `entry.ts ≤ t` of a
history vector; `none` when no entry qualifies.  This is the list embedding
of the binary search of the spec's history-lookup algorithm. -/
def findLE (t : Timestamp) : List TimestampedCatalogId → Option TimestampedCatalogId
  | [] => none
  | e :: rest => if e.ts ≤ t then some ((findLE t rest).getD e) else findLE t rest

/-- Verdict derived from the history entry the search found: a non-empty
catalog id means the key exists at that time under that id, an empty one
means it was dropped. -/
def lookupResultOf (e : TimestampedCatalogId) : CatalogIdLookup :=
  match e.id with
  | some cid => { id := some cid, result := Existence.kExists }
  | none => { id := none, result := Existence.kNotExists }

/-- Modelled from the spec: member
`CollectionCatalog::_checkWithOldestCatalogIdTimestampMaintained` (body not
in the provided sources).  When no history entry decides a timestamp, the
spec compares `t` against the catalog's `oldestMaintained`: at or after it
the answer is `kNotExists`, strictly before it the answer is `kUnknown`. -/
def CollectionCatalog.checkWithOldestCatalogIdTimestampMaintained
    (cat : CollectionCatalog) (ts : Timestamp) : CatalogIdLookup :=
  if cat.oldestCatalogIdTimestampMaintained ≤ ts then
    { id := none, result := Existence.kNotExists }
  else
    { id := none, result := Existence.kUnknown }

/-- Modelled from the spec: member `CollectionCatalog::_findCatalogIdInRange`
(body not in the provided sources).  Binary-search the monotonically ordered
vector for the greatest entry with `entry.ts ≤ t`; a found non-empty id is
`kExists`, a found drop is `kNotExists`, and with no qualifying entry the
maintained-window check decides. -/
def CollectionCatalog.findCatalogIdInRange (cat : CollectionCatalog)
    (ts : Timestamp) (range : List TimestampedCatalogId) : CatalogIdLookup :=
  match findLE ts range with
  | some e => lookupResultOf e
  | none => cat.checkWithOldestCatalogIdTimestampMaintained ts

/-- Modelled from the spec: member `CollectionCatalog::lookupCatalogIdByNSS`
(body not in the provided sources).  The spec specifies the algorithm for a
concrete query timestamp, which is the form all verified claims use; a
namespace without recorded history has the empty vector. -/
def CollectionCatalog.lookupCatalogIdByNSS (cat : CollectionCatalog)
    (nss : NamespaceString) (ts : Timestamp) : CatalogIdLookup :=
  cat.findCatalogIdInRange ts (cat.nssCatalogIds nss)

/-- Modelled from the spec: member `CollectionCatalog::lookupCatalogIdByUUID`
(body not in the provided sources); the UUID counterpart of
`lookupCatalogIdByNSS`. -/
def CollectionCatalog.lookupCatalogIdByUUID (cat : CollectionCatalog)
    (uuid : UUID) (ts : Timestamp) : CatalogIdLookup :=
  cat.findCatalogIdInRange ts (cat.uuidCatalogIds uuid)

/-- Greatest-qualifying-entry specification used to state the lookup claims:
`e` is an entry of `v` with `e.ts ≤ t`, and no entry of `v` with timestamp
at most `t` has a larger timestamp. -/
def isGreatestLE (e : TimestampedCatalogId) (t : Timestamp)
    (v : List TimestampedCatalogId) : Prop :=
  e ∈ v ∧ e.ts ≤ t ∧ ∀ e2 ∈ v, e2.ts ≤ t → e2.ts ≤ e.ts

/-- Strict time-ordering of a history vector. -/
def ordered (v : List TimestampedCatalogId) : Prop :=
  List.Pairwise (fun a b => a.ts < b.ts) v

/-- An entry returned by `findLE` is a member of the vector and qualifies. -/
theorem findLE_mem_le {t : Timestamp} {v : List TimestampedCatalogId}
    {e : TimestampedCatalogId} (h : findLE t v = some e) : e ∈ v ∧ e.ts ≤ t := by
  induction v with
  | nil => simp [findLE] at h
  | cons a rest ih =>
    by_cases ha : a.ts ≤ t
    · simp only [findLE, if_pos ha] at h
      cases hr : findLE t rest with
      | none =>
        rw [hr] at h
        simp [Option.getD] at h
        subst h
        exact ⟨List.mem_cons_self a rest, ha⟩
      | some e2 =>
        rw [hr] at h
        simp [Option.getD] at h
        subst h
        obtain ⟨hmem, hle⟩ := ih hr
        exact ⟨List.mem_cons_of_mem a hmem, hle⟩
    · simp only [findLE, if_neg ha] at h
      obtain ⟨hmem, hle⟩ := ih h
      exact ⟨List.mem_cons_of_mem a hmem, hle⟩

/-- The search comes back empty exactly when no entry qualifies. -/
theorem findLE_eq_none_iff {t : Timestamp} {v : List TimestampedCatalogId} :
    findLE t v = none ↔ ∀ e ∈ v, ¬ e.ts ≤ t := by
  induction v with
  | nil => simp [findLE]
  | cons a rest ih =>
    by_cases ha : a.ts ≤ t
    · simp only [findLE, if_pos ha]
      constructor
      · intro h
        cases hr : findLE t rest <;> simp [hr, Option.getD] at h
      · intro h
        exact absurd ha (h a (List.mem_cons_self a rest))
    · simp only [findLE, if_neg ha]
      rw [ih]
      constructor
      · intro h e he
        rcases List.mem_cons.mp he with rfl | hmem
        · exact ha
        · exact h e hmem
      · intro h e he
        exact h e (List.mem_cons_of_mem a he)

/-- In a strictly ordered vector every entry after the head is later than
the head. -/
theorem ordered_head_lt {a : TimestampedCatalogId} {rest : List TimestampedCatalogId}
    (h : ordered (a :: rest)) : ∀ e ∈ rest, a.ts < e.ts := by
  intro e he
  exact (List.pairwise_cons.mp h).1 e he

/-- The tail of a strictly ordered vector is strictly ordered. -/
theorem ordered_tail {a : TimestampedCatalogId} {rest : List TimestampedCatalogId}
    (h : ordered (a :: rest)) : ordered rest :=
  (List.pairwise_cons.mp h).2

/-- On a strictly ordered vector `findLE` returns a greatest qualifying
entry whenever it returns one. -/
theorem findLE_isGreatestLE {t : Timestamp} {v : List TimestampedCatalogId}
    {e : TimestampedCatalogId} (hs : ordered v) (h : findLE t v = some e) :
    isGreatestLE e t v := by
  induction v with
  | nil => simp [findLE] at h
  | cons a rest ih =>
    by_cases ha : a.ts ≤ t
    · simp only [findLE, if_pos ha] at h
      cases hr : findLE t rest with
      | none =>
        rw [hr] at h
        simp [Option.getD] at h
        subst h
        refine ⟨List.mem_cons_self _ rest, ha, ?_⟩
        intro e2 he2 hle2
        rcases List.mem_cons.mp he2 with rfl | hmem
        · exact Nat.le_refl _
        · exact absurd hle2 (findLE_eq_none_iff.mp hr e2 hmem)
      | some e2 =>
        rw [hr] at h
        simp [Option.getD] at h
        subst h
        obtain ⟨hmem, hle, hmax⟩ := ih (ordered_tail hs) hr
        refine ⟨List.mem_cons_of_mem a hmem, hle, ?_⟩
        intro e3 he3 hle3
        rcases List.mem_cons.mp he3 with rfl | hmem3
        · exact Nat.le_of_lt (ordered_head_lt hs _ hmem)
        · exact hmax e3 hmem3 hle3
    · simp only [findLE, if_neg ha] at h
      obtain ⟨hmem, hle, hmax⟩ := ih (ordered_tail hs) h
      refine ⟨List.mem_cons_of_mem a hmem, hle, ?_⟩
      intro e2 he2 hle2
      rcases List.mem_cons.mp he2 with rfl | hmem2
      · exact absurd hle2 ha
      · exact hmax e2 hmem2 hle2

/-- In a strictly ordered vector, entries are determined by their
timestamp. -/
theorem ordered_mem_ts_inj {v : List TimestampedCatalogId}
    {e1 e2 : TimestampedCatalogId} (hs : ordered v) (h1 : e1 ∈ v) (h2 : e2 ∈ v)
    (hts : e1.ts = e2.ts) : e1 = e2 := by
  induction v with
  | nil => cases h1
  | cons a rest ih =>
    rcases List.mem_cons.mp h1 with rfl | hm1
    · rcases List.mem_cons.mp h2 with rfl | hm2
      · rfl
      · exact absurd hts (Nat.ne_of_lt (ordered_head_lt hs e2 hm2))
    · rcases List.mem_cons.mp h2 with rfl | hm2
      · exact absurd hts.symm (Nat.ne_of_lt (ordered_head_lt hs e1 hm1))
      · exact ih (ordered_tail hs) hm1 hm2

/-- On a strictly ordered vector `findLE` returns exactly the greatest
qualifying entry. -/
theorem findLE_of_isGreatestLE {t : Timestamp} {v : List TimestampedCatalogId}
    {e : TimestampedCatalogId} (hs : ordered v) (hg : isGreatestLE e t v) :
    findLE t v = some e := by
  obtain ⟨hmem, hle, hmax⟩ := hg
  cases hf : findLE t v with
  | none => exact absurd hle (findLE_eq_none_iff.mp hf e hmem)
  | some e2 =>
    obtain ⟨hmem2, hle2, hmax2⟩ := findLE_isGreatestLE hs hf
    have h12 : e2.ts ≤ e.ts := hmax e2 hmem2 hle2
    have h21 : e.ts ≤ e2.ts := hmax2 e hmem hle
    rw [ordered_mem_ts_inj hs hmem2 hmem (Nat.le_antisymm h12 h21)]

/-- C1: for every key (namespace or UUID) with a strictly time-ordered
history vector and every query timestamp `t`, `lookupCatalogIdByNSS` /
`lookupCatalogIdByUUID` return the verdict of the greatest history entry
with `entry.ts ≤ t`: a non-empty catalog id yields `kExists` with that id,
a drop yields `kNotExists` (so a lookup at a timestamp equal to an entry's
timestamp returns that entry's verdict), and when no entry qualifies the
result is `kNotExists` for `t` at or above `oldestMaintained` and
`kUnknown` below it. -/
theorem c1_lookupCatalogId_greatest_entry (cat : CollectionCatalog)
    (nss : NamespaceString) (uuid : UUID) (t : Timestamp)
    (hn : ordered (cat.nssCatalogIds nss))
    (hu : ordered (cat.uuidCatalogIds uuid)) :
    (∀ e, isGreatestLE e t (cat.nssCatalogIds nss) →
      cat.lookupCatalogIdByNSS nss t = lookupResultOf e) ∧
    (∀ e, isGreatestLE e t (cat.uuidCatalogIds uuid) →
      cat.lookupCatalogIdByUUID uuid t = lookupResultOf e) ∧
    (∀ e ∈ cat.nssCatalogIds nss, e.ts = t →
      cat.lookupCatalogIdByNSS nss t = lookupResultOf e) ∧
    (∀ e ∈ cat.uuidCatalogIds uuid, e.ts = t →
      cat.lookupCatalogIdByUUID uuid t = lookupResultOf e) ∧
    ((∀ e ∈ cat.nssCatalogIds nss, ¬ e.ts ≤ t) →
      cat.lookupCatalogIdByNSS nss t =
        if cat.oldestCatalogIdTimestampMaintained ≤ t then
          { id := none, result := Existence.kNotExists }
        else
          { id := none, result := Existence.kUnknown }) ∧
    ((∀ e ∈ cat.uuidCatalogIds uuid, ¬ e.ts ≤ t) →
      cat.lookupCatalogIdByUUID uuid t =
        if cat.oldestCatalogIdTimestampMaintained ≤ t then
          { id := none, result := Existence.kNotExists }
        else
          { id := none, result := Existence.kUnknown }) := by
  have hfound : ∀ (v : List TimestampedCatalogId), ordered v →
      ∀ e, isGreatestLE e t v →
      cat.findCatalogIdInRange t v = lookupResultOf e := by
    intro v hv e hg
    unfold CollectionCatalog.findCatalogIdInRange
    rw [findLE_of_isGreatestLE hv hg]
  have hnone : ∀ (v : List TimestampedCatalogId), (∀ e ∈ v, ¬ e.ts ≤ t) →
      cat.findCatalogIdInRange t v =
        if cat.oldestCatalogIdTimestampMaintained ≤ t then
          { id := none, result := Existence.kNotExists }
        else
          { id := none, result := Existence.kUnknown } := by
    intro v hv
    unfold CollectionCatalog.findCatalogIdInRange
    rw [findLE_eq_none_iff.mpr hv]
    rfl
  have heq : ∀ (v : List TimestampedCatalogId), ordered v →
      ∀ e ∈ v, e.ts = t → isGreatestLE e t v := by
    intro v _ e hmem hts
    exact ⟨hmem, Nat.le_of_eq hts, fun e2 _ hle2 => hts ▸ hle2⟩
  refine ⟨fun e hg => hfound _ hn e hg,
          fun e hg => hfound _ hu e hg,
          fun e hmem hts => hfound _ hn e (heq _ hn e hmem hts),
          fun e hmem hts => hfound _ hu e (heq _ hu e hmem hts),
          fun hv => hnone _ hv,
          fun hv => hnone _ hv⟩

/-- Concrete history vector used by several witnesses: a create at time 10
under catalog id 7, then a drop at time 50. -/
def sampleHistory : List TimestampedCatalogId :=
  [{ id := some 7, ts := 10 }, { id := none, ts := 50 }]

/-- Concrete catalog used by witnesses: one namespace and one UUID carry
`sampleHistory`, with a maintained window starting at time 10. -/
def sampleCatalog : CollectionCatalog :=
  { emptyCatalog with
    nssCatalogIds := upd emptyCatalog.nssCatalogIds { db := "db", coll := "c" } sampleHistory,
    uuidCatalogIds := upd emptyCatalog.uuidCatalogIds 1 sampleHistory,
    oldestCatalogIdTimestampMaintained := 10 }

/-- Witness for C1 at a concrete catalog: the create entry at time 10 is the
greatest entry with timestamp at most 20, and the lookup returns kExists
with catalog id 7. -/
theorem c1_lookupCatalogId_greatest_entry_witness :
    sampleCatalog.lookupCatalogIdByNSS { db := "db", coll := "c" } 20 =
      { id := some 7, result := Existence.kExists } :=
  (c1_lookupCatalogId_greatest_entry sampleCatalog { db := "db", coll := "c" } 1 20
      (by unfold sampleCatalog sampleHistory emptyCatalog upd ordered; simp)
      (by unfold sampleCatalog sampleHistory emptyCatalog upd ordered; simp)).1
    { id := some 7, ts := 10 }
    (by unfold sampleCatalog sampleHistory emptyCatalog upd isGreatestLE; simp)

/-- Modelled from the spec: member
`CollectionCatalog::_pushCatalogIdForNSSAndUUID` (body not in the provided
sources).  Appends the timestamped catalog id to the histories of the given
namespace and UUID; a `none` commit timestamp turns the push into a no-op
(startup reconstruction path); the maintained-window lower bound tracks the
earliest retained entry. -/
def CollectionCatalog.pushCatalogIdForNSSAndUUID (cat : CollectionCatalog)
    (nss : NamespaceString) (uuid : UUID) (catalogId : Option RecordId)
    (ts : Option Timestamp) : CollectionCatalog :=
  match ts with
  | none => cat
  | some t =>
    { cat with
      nssCatalogIds :=
        upd cat.nssCatalogIds nss (cat.nssCatalogIds nss ++ [{ id := catalogId, ts := t }]),
      uuidCatalogIds :=
        upd cat.uuidCatalogIds uuid (cat.uuidCatalogIds uuid ++ [{ id := catalogId, ts := t }]),
      oldestCatalogIdTimestampMaintained :=
        min cat.oldestCatalogIdTimestampMaintained t }

/-- Modelled from the spec: member `CollectionCatalog::registerCollection`
(body not in the provided sources).  Inserts the descriptor into the
primary UUID map, the namespace map and the ordered per-database map, and
appends a create entry (the descriptor's catalog id) to the histories at
the commit timestamp. -/
def CollectionCatalog.registerCollection (cat : CollectionCatalog) (uuid : UUID)
    (collection : Collection) (commitTime : Option Timestamp) : CollectionCatalog :=
  let cat1 : CollectionCatalog :=
    { cat with
      catalog := upd cat.catalog uuid (some collection),
      collections := upd cat.collections collection.nss (some collection),
      orderedCollections :=
        cat.orderedCollections ++ [((collection.nss.db, uuid), collection)] }
  cat1.pushCatalogIdForNSSAndUUID collection.nss uuid (some collection.catalogId) commitTime

/-- Modelled from the spec: member
`CollectionCatalog::registerCollectionTwoPhase` (body not in the provided
sources).  The prepare step of two-phase DDL: the descriptor is inserted
into the pending-commit overlay maps only, where it is invisible to
ordinary lookups until published. -/
def CollectionCatalog.registerCollectionTwoPhase (cat : CollectionCatalog)
    (uuid : UUID) (collection : Collection) (_commitTime : Option Timestamp) :
    CollectionCatalog :=
  { cat with
    pendingCommitNamespaces :=
      upd cat.pendingCommitNamespaces collection.nss (some collection),
    pendingCommitUUIDs := upd cat.pendingCommitUUIDs uuid (some collection) }

/-- Modelled from the spec: the publish step of two-phase DDL (driven in the
source by `onCreateCollection` and the `PublishCatalogUpdates` commit
handler, bodies not in the provided sources).  On storage commit the
descriptor is removed from the pending maps, inserted into the
authoritative maps and appended to the catalog-id histories. -/
def CollectionCatalog.publishCollectionTwoPhase (cat : CollectionCatalog)
    (uuid : UUID) (collection : Collection) (commitTime : Option Timestamp) :
    CollectionCatalog :=
  let cat1 : CollectionCatalog :=
    { cat with
      pendingCommitNamespaces := upd cat.pendingCommitNamespaces collection.nss none,
      pendingCommitUUIDs := upd cat.pendingCommitUUIDs uuid none,
      catalog := upd cat.catalog uuid (some collection),
      collections := upd cat.collections collection.nss (some collection),
      orderedCollections :=
        cat.orderedCollections ++ [((collection.nss.db, uuid), collection)] }
  cat1.pushCatalogIdForNSSAndUUID collection.nss uuid (some collection.catalogId) commitTime

/-- Modelled from the spec: member `CollectionCatalog::deregisterCollection`
(body not in the provided sources).  Removes the descriptor from the
authoritative maps, appends a drop entry (empty catalog id) to the
histories of its namespace and UUID at the commit timestamp, and returns
the descriptor for the caller to place in drop-pending.  Deregistering an
unknown UUID leaves the catalog unchanged and returns nothing. -/
def CollectionCatalog.deregisterCollection (cat : CollectionCatalog) (uuid : UUID)
    (_isDropPending : Bool) (commitTime : Option Timestamp) :
    CollectionCatalog × Option Collection :=
  match cat.catalog uuid with
  | none => (cat, none)
  | some coll =>
    let cat1 : CollectionCatalog :=
      { cat with
        catalog := upd cat.catalog uuid none,
        collections := upd cat.collections coll.nss none,
        orderedCollections :=
          cat.orderedCollections.filter (fun e => decide (e.1.2 ≠ uuid)) }
    (cat1.pushCatalogIdForNSSAndUUID coll.nss uuid none commitTime, some coll)

/-- Modelled from the spec: member
`CollectionCatalog::_pushCatalogIdForRename` (body not in the provided
sources).  At the rename commit timestamp the history of the `to` namespace
receives the moved catalog id (the last id recorded under `from`) and the
history of the `from` namespace receives a drop; UUID histories are not
touched.  A `none` timestamp turns the push into a no-op. -/
def CollectionCatalog.pushCatalogIdForRename (cat : CollectionCatalog)
    (nfrom nto : NamespaceString) (ts : Option Timestamp) : CollectionCatalog :=
  match ts with
  | none => cat
  | some t =>
    let movedId : Option RecordId := ((cat.nssCatalogIds nfrom).getLast?).bind (fun e => e.id)
    { cat with
      nssCatalogIds := fun x =>
        if x = nto then cat.nssCatalogIds nto ++ [{ id := movedId, ts := t }]
        else if x = nfrom then cat.nssCatalogIds nfrom ++ [{ id := none, ts := t }]
        else cat.nssCatalogIds x,
      oldestCatalogIdTimestampMaintained :=
        min cat.oldestCatalogIdTimestampMaintained t }

/-- Modelled from the spec: member `CollectionCatalog::onCollectionRename`
together with its commit handler (bodies not in the provided sources).  The
descriptor moves from the `fromCollection` namespace to its new namespace
in the namespace map, stays under its UUID, and the rename pushes history
entries under both namespaces at the commit timestamp. -/
def CollectionCatalog.onCollectionRename (cat : CollectionCatalog)
    (coll : Collection) (fromCollection : NamespaceString)
    (commitTime : Option Timestamp) : CollectionCatalog :=
  let cat1 : CollectionCatalog :=
    { cat with
      collections := upd (upd cat.collections fromCollection none) coll.nss (some coll),
      catalog := upd cat.catalog coll.uuid (some coll) }
  cat1.pushCatalogIdForRename fromCollection coll.nss commitTime

/-- Modelled from the spec: the pruning of one history vector by
`cleanupForOldestTimestampAdvanced` (body not in the provided sources).
When the tail entry is a drop older than the advanced oldest timestamp the
entire vector is removed; otherwise entries older than the oldest timestamp
are discarded while at least the last two entries are kept. -/
def cleanupVector (oldest : Timestamp) (v : List TimestampedCatalogId) :
    List TimestampedCatalogId :=
  match v.getLast? with
  | none => []
  | some last =>
    if last.id = none ∧ last.ts < oldest then []
    else v.drop (v.length - max 2 (v.countP (fun e => decide (oldest ≤ e.ts))))

/-- Modelled from the spec: member
`CollectionCatalog::cleanupForOldestTimestampAdvanced` (body not in the
provided sources).  Prunes every namespace and UUID history with
`cleanupVector` once the external oldest timestamp advances. -/
def CollectionCatalog.cleanupForOldestTimestampAdvanced (cat : CollectionCatalog)
    (oldest : Timestamp) : CollectionCatalog :=
  { cat with
    nssCatalogIds := fun k => cleanupVector oldest (cat.nssCatalogIds k),
    uuidCatalogIds := fun k => cleanupVector oldest (cat.uuidCatalogIds k) }

/-- Modelled from the spec: member `CollectionCatalog::onCloseCatalog` (body
not in the provided sources).  Entering the closed state captures a shadow
UUID-to-namespace table from the current primary map; the epoch is not
changed by the close itself. -/
def CollectionCatalog.onCloseCatalog (cat : CollectionCatalog) : CollectionCatalog :=
  { cat with shadowCatalog := some (fun u => (cat.catalog u).map (fun c => c.nss)) }

/-- Modelled from the spec: member `CollectionCatalog::onOpenCatalog` (body
not in the provided sources).  Reopening drops the shadow table and
increments the monotonic epoch. -/
def CollectionCatalog.onOpenCatalog (cat : CollectionCatalog) : CollectionCatalog :=
  { cat with shadowCatalog := none, epoch := cat.epoch + 1 }

/-- Epoch accessor `CollectionCatalog::getEpoch`. -/
def CollectionCatalog.getEpoch (cat : CollectionCatalog) : Nat := cat.epoch

/-- Modelled from the spec: member
`CollectionCatalog::deregisterAllCollectionsAndViews` (body not in the
provided sources).  Empties every collection map; during a storage-engine
restart this runs while the catalog is closed, leaving only the shadow
table for UUID resolution. -/
def CollectionCatalog.deregisterAllCollectionsAndViews (cat : CollectionCatalog) :
    CollectionCatalog :=
  { cat with
    catalog := fun _ => none,
    collections := fun _ => none,
    orderedCollections := [],
    pendingCommitNamespaces := fun _ => none,
    pendingCommitUUIDs := fun _ => none }

/-- Modelled from the spec: member `CollectionCatalog::lookupCollectionByUUID`
(body not in the provided sources).  An ordinary lookup serves the
authoritative map; a hit in the pending-commit overlay is returned only to
a reader whose storage snapshot has observed the commit (the
`snapshotObservedCommit` flag), and is reported absent otherwise. -/
def CollectionCatalog.lookupCollectionByUUID (cat : CollectionCatalog)
    (snapshotObservedCommit : Bool) (uuid : UUID) : Option Collection :=
  match cat.catalog uuid with
  | some c => some c
  | none =>
    match cat.pendingCommitUUIDs uuid with
    | some c => if snapshotObservedCommit then some c else none
    | none => none

/-- Modelled from the spec: member
`CollectionCatalog::lookupCollectionByNamespace` (body not in the provided
sources); the namespace counterpart of `lookupCollectionByUUID`. -/
def CollectionCatalog.lookupCollectionByNamespace (cat : CollectionCatalog)
    (snapshotObservedCommit : Bool) (nss : NamespaceString) : Option Collection :=
  match cat.collections nss with
  | some c => some c
  | none =>
    match cat.pendingCommitNamespaces nss with
    | some c => if snapshotObservedCommit then some c else none
    | none => none

/-- Modelled from the spec: member `CollectionCatalog::lookupNSSByUUID` (body
not in the provided sources).  Resolves a UUID to its namespace through the
primary map, falling back to the shadow table while the catalog is closed;
an unknown UUID yields nothing. -/
def CollectionCatalog.lookupNSSByUUID (cat : CollectionCatalog) (uuid : UUID) :
    Option NamespaceString :=
  match cat.catalog uuid with
  | some c => some c.nss
  | none =>
    match cat.shadowCatalog with
    | some shadow => shadow uuid
    | none => none

/-- Modelled from the spec: member
`CollectionCatalog::resolveNamespaceStringOrUUID` (body not in the provided
sources; behavior documented on its declaration).  A plain namespace
resolves to itself; a UUID raises NamespaceNotFound when it cannot be
resolved to a name or when the resolved collection lives in a database
other than the expected one. -/
def CollectionCatalog.resolveNamespaceStringOrUUID (cat : CollectionCatalog)
    (nsOrUUID : NamespaceStringOrUUID) : Except ErrorCodes NamespaceString :=
  match nsOrUUID with
  | NamespaceStringOrUUID.byName nss => Except.ok nss
  | NamespaceStringOrUUID.byUUID dbName uuid =>
    match cat.lookupNSSByUUID uuid with
    | none => Except.error ErrorCodes.NamespaceNotFound
    | some resolvedNss =>
      if resolvedNss.db = dbName then Except.ok resolvedNss
      else Except.error ErrorCodes.NamespaceNotFound

/-- Modelled from the spec: member
`CollectionCatalog::getAllCollectionUUIDsFromDb` (body not in the provided
sources).  Collects the UUIDs of the ordered per-database map entries whose
database equals the requested one. -/
def CollectionCatalog.getAllCollectionUUIDsFromDb (cat : CollectionCatalog)
    (dbName : DatabaseName) : List UUID :=
  (cat.orderedCollections.filter (fun e => decide (e.1.1 = dbName))).map (fun e => e.1.2)

/-- Modelled from the spec: member
`CollectionCatalog::getAllCollectionNamesFromDb` (body not in the provided
sources).  Collects the namespaces of the ordered per-database map entries
whose database equals the requested one. -/
def CollectionCatalog.getAllCollectionNamesFromDb (cat : CollectionCatalog)
    (dbName : DatabaseName) : List NamespaceString :=
  (cat.orderedCollections.filter (fun e => decide (e.1.1 = dbName))).map (fun e => e.2.nss)

/-- Catalog write job as submitted to `CollectionCatalog::write`: it either
transforms the catalog or throws an error. -/
def CatalogWriteFn (ε : Type) : Type := CollectionCatalog → Except ε CollectionCatalog

/-- Modelled from the spec: the batched execution of write jobs inside
`CollectionCatalog::write` (body not in the provided sources).  Jobs queued
behind the serialization lock run in submission order against the same
clone; a job that throws has its staged mutations discarded while its error
is recorded for its submitter, and the remaining jobs continue from the
unchanged state. -/
def writeBatch {ε : Type} (cat : CollectionCatalog) :
    List (CatalogWriteFn ε) → CollectionCatalog × List (Option ε)
  | [] => (cat, [])
  | job :: rest =>
    match job cat with
    | Except.ok cat2 =>
      let r := writeBatch cat2 rest
      (r.1, none :: r.2)
    | Except.error e =>
      let r := writeBatch cat rest
      (r.1, some e :: r.2)

/-- Concrete collection descriptor used by witnesses. -/
def sampleCollection : Collection :=
  { uuid := 1, nss := { db := "db", coll := "c" }, catalogId := 7 }

/-- C2: registering a UUID at commit timestamp T1 and later deregistering it
at T2 > T1 makes `lookupCatalogIdByUUID` answer kExists with the registered
catalog id for every t in [T1, T2) and kNotExists for every t at or above
T2; a UUID that is registered and never deregistered answers kExists at
T1. -/
theorem c2_register_deregister_roundtrip (cat : CollectionCatalog) (uuid : UUID)
    (coll : Collection) (dp : Bool) (T1 T2 : Timestamp)
    (hfresh : cat.uuidCatalogIds uuid = [])
    (hT : T1 < T2) :
    (∀ t, T1 ≤ t → t < T2 →
      ((cat.registerCollection uuid coll (some T1)).deregisterCollection uuid dp
          (some T2)).1.lookupCatalogIdByUUID uuid t =
        { id := some coll.catalogId, result := Existence.kExists }) ∧
    (∀ t, T2 ≤ t →
      ((cat.registerCollection uuid coll (some T1)).deregisterCollection uuid dp
          (some T2)).1.lookupCatalogIdByUUID uuid t =
        { id := none, result := Existence.kNotExists }) ∧
    (cat.registerCollection uuid coll (some T1)).lookupCatalogIdByUUID uuid T1 =
      { id := some coll.catalogId, result := Existence.kExists } := by
  refine ⟨?_, ?_, ?_⟩
  · intro t ht1 ht2
    have h2 : ¬ T2 ≤ t := Nat.not_le.mpr ht2
    simp [CollectionCatalog.registerCollection, CollectionCatalog.deregisterCollection,
      CollectionCatalog.pushCatalogIdForNSSAndUUID, CollectionCatalog.lookupCatalogIdByUUID,
      CollectionCatalog.findCatalogIdInRange, upd, hfresh, findLE, lookupResultOf,
      ht1, h2]
  · intro t ht2
    have ht1 : T1 ≤ t := Nat.le_trans (Nat.le_of_lt hT) ht2
    simp [CollectionCatalog.registerCollection, CollectionCatalog.deregisterCollection,
      CollectionCatalog.pushCatalogIdForNSSAndUUID, CollectionCatalog.lookupCatalogIdByUUID,
      CollectionCatalog.findCatalogIdInRange, upd, hfresh, findLE, lookupResultOf,
      ht1, ht2]
  · simp [CollectionCatalog.registerCollection,
      CollectionCatalog.pushCatalogIdForNSSAndUUID, CollectionCatalog.lookupCatalogIdByUUID,
      CollectionCatalog.findCatalogIdInRange, upd, hfresh, findLE, lookupResultOf]

/-- Witness for C2 at a concrete run: register UUID 1 at time 10, deregister
at time 50, and the lookup at time 20 reports kExists under catalog id 7. -/
theorem c2_register_deregister_roundtrip_witness :
    ((emptyCatalog.registerCollection 1 sampleCollection (some 10)).deregisterCollection
        1 true (some 50)).1.lookupCatalogIdByUUID 1 20 =
      { id := some 7, result := Existence.kExists } :=
  (c2_register_deregister_roundtrip emptyCatalog 1 sampleCollection true 10 50 rfl
      (by decide)).1 20 (by decide) (by decide)

/-- C3: after `registerCollectionTwoPhase` stages a descriptor in the
pending-commit maps and before the commit is published, an ordinary lookup
by UUID or namespace from a reader whose storage snapshot has not observed
the commit returns nothing; after the publish step the same lookups return
the descriptor. -/
theorem c3_two_phase_visibility (cat : CollectionCatalog) (uuid : UUID)
    (coll : Collection) (prepTime commitTime : Option Timestamp)
    (hu : cat.catalog uuid = none) (hn : cat.collections coll.nss = none) :
    (cat.registerCollectionTwoPhase uuid coll prepTime).lookupCollectionByUUID
        false uuid = none ∧
    (cat.registerCollectionTwoPhase uuid coll prepTime).lookupCollectionByNamespace
        false coll.nss = none ∧
    (∀ b, ((cat.registerCollectionTwoPhase uuid coll
        prepTime).publishCollectionTwoPhase uuid coll
        commitTime).lookupCollectionByUUID b uuid = some coll) ∧
    (∀ b, ((cat.registerCollectionTwoPhase uuid coll
        prepTime).publishCollectionTwoPhase uuid coll
        commitTime).lookupCollectionByNamespace b coll.nss = some coll) := by
  refine ⟨?_, ?_, ?_, ?_⟩
  · simp [CollectionCatalog.registerCollectionTwoPhase,
      CollectionCatalog.lookupCollectionByUUID, upd, hu]
  · simp [CollectionCatalog.registerCollectionTwoPhase,
      CollectionCatalog.lookupCollectionByNamespace, upd, hn]
  · intro b
    cases commitTime <;>
      simp [CollectionCatalog.registerCollectionTwoPhase,
        CollectionCatalog.publishCollectionTwoPhase,
        CollectionCatalog.pushCatalogIdForNSSAndUUID,
        CollectionCatalog.lookupCollectionByUUID, upd]
  · intro b
    cases commitTime <;>
      simp [CollectionCatalog.registerCollectionTwoPhase,
        CollectionCatalog.publishCollectionTwoPhase,
        CollectionCatalog.pushCatalogIdForNSSAndUUID,
        CollectionCatalog.lookupCollectionByNamespace, upd]

/-- Witness for C3 at a concrete run: the staged descriptor is invisible to
a reader without the commit in its snapshot, and visible after publish. -/
theorem c3_two_phase_visibility_witness :
    (emptyCatalog.registerCollectionTwoPhase 1 sampleCollection
        none).lookupCollectionByUUID false 1 = none ∧
    ((emptyCatalog.registerCollectionTwoPhase 1 sampleCollection
        none).publishCollectionTwoPhase 1 sampleCollection
        (some 20)).lookupCollectionByUUID false 1 = some sampleCollection := by
  have h := c3_two_phase_visibility emptyCatalog 1 sampleCollection none (some 20)
    rfl rfl
  exact ⟨h.1, h.2.2.1 false⟩

/-- C5: renaming a committed collection from namespace N1 to namespace N2 at
commit timestamp T appends a drop entry under N1 and a create entry (the
moved catalog id) under N2, both at timestamp T, and leaves every UUID
history vector completely unchanged. -/
theorem c5_rename_frame (cat : CollectionCatalog) (coll : Collection)
    (fromCollection : NamespaceString) (t : Timestamp) (cid : RecordId)
    (hne : fromCollection ≠ coll.nss)
    (hmoved : ((cat.nssCatalogIds fromCollection).getLast?).bind (fun e => e.id) =
      some cid) :
    (cat.onCollectionRename coll fromCollection (some t)).nssCatalogIds
        fromCollection =
      cat.nssCatalogIds fromCollection ++ [{ id := none, ts := t }] ∧
    (cat.onCollectionRename coll fromCollection (some t)).nssCatalogIds coll.nss =
      cat.nssCatalogIds coll.nss ++ [{ id := some cid, ts := t }] ∧
    ∀ u, (cat.onCollectionRename coll fromCollection (some t)).uuidCatalogIds u =
      cat.uuidCatalogIds u := by
  refine ⟨?_, ?_, ?_⟩
  · simp [CollectionCatalog.onCollectionRename,
      CollectionCatalog.pushCatalogIdForRename, hne]
  · simp [CollectionCatalog.onCollectionRename,
      CollectionCatalog.pushCatalogIdForRename, hmoved]
  · intro u
    simp [CollectionCatalog.onCollectionRename,
      CollectionCatalog.pushCatalogIdForRename]

/-- Concrete catalog used by the rename witness: namespace a.x carries a
single create entry at time 30 under catalog id 7, and UUID 3 carries the
matching create entry. -/
def sampleRenameCatalog : CollectionCatalog :=
  { emptyCatalog with
    nssCatalogIds :=
      upd emptyCatalog.nssCatalogIds { db := "a", coll := "x" } [{ id := some 7, ts := 30 }],
    uuidCatalogIds := upd emptyCatalog.uuidCatalogIds 3 [{ id := some 7, ts := 30 }] }

/-- Witness for C5 at a concrete run: renaming a.x to a.y at time 40 appends
a drop under a.x and a create under a.y, and UUID 3 keeps its single create
entry at time 30. -/
theorem c5_rename_frame_witness :
    (sampleRenameCatalog.onCollectionRename
        { uuid := 3, nss := { db := "a", coll := "y" }, catalogId := 7 }
        { db := "a", coll := "x" } (some 40)).nssCatalogIds { db := "a", coll := "x" } =
      [{ id := some 7, ts := 30 }, { id := none, ts := 40 }] ∧
    (sampleRenameCatalog.onCollectionRename
        { uuid := 3, nss := { db := "a", coll := "y" }, catalogId := 7 }
        { db := "a", coll := "x" } (some 40)).uuidCatalogIds 3 =
      [{ id := some 7, ts := 30 }] := by
  have h := c5_rename_frame sampleRenameCatalog
    { uuid := 3, nss := { db := "a", coll := "y" }, catalogId := 7 }
    { db := "a", coll := "x" } 40 7 (by decide)
    (by unfold sampleRenameCatalog emptyCatalog upd; simp)
  refine ⟨?_, ?_⟩
  · rw [h.1]
    unfold sampleRenameCatalog emptyCatalog upd
    simp
  · rw [h.2.2 3]
    unfold sampleRenameCatalog emptyCatalog upd
    simp

/-- C7: closing and then reopening the catalog increases the epoch by
exactly one; no modelled catalog operation ever decreases the epoch; and
while the catalog is closed (its primary maps emptied for the storage
restart) `lookupNSSByUUID` resolves a UUID through the shadow table
captured at close time. -/
theorem c7_close_open_epoch_shadow (cat : CollectionCatalog) (uuid : UUID)
    (coll : Collection) (hc : cat.catalog uuid = some coll) :
    cat.onCloseCatalog.onOpenCatalog.getEpoch = cat.getEpoch + 1 ∧
    cat.getEpoch ≤ cat.onCloseCatalog.getEpoch ∧
    cat.getEpoch ≤ cat.onOpenCatalog.getEpoch ∧
    (∀ u c2 ts, cat.getEpoch ≤ (cat.registerCollection u c2 ts).getEpoch) ∧
    (∀ u c2 ts, cat.getEpoch ≤ (cat.registerCollectionTwoPhase u c2 ts).getEpoch) ∧
    (∀ u c2 ts, cat.getEpoch ≤ (cat.publishCollectionTwoPhase u c2 ts).getEpoch) ∧
    (∀ u dp ts, cat.getEpoch ≤ ((cat.deregisterCollection u dp ts).1).getEpoch) ∧
    (∀ c2 nfrom ts, cat.getEpoch ≤ (cat.onCollectionRename c2 nfrom ts).getEpoch) ∧
    (∀ oldest, cat.getEpoch ≤ (cat.cleanupForOldestTimestampAdvanced oldest).getEpoch) ∧
    cat.getEpoch ≤ cat.deregisterAllCollectionsAndViews.getEpoch ∧
    cat.onCloseCatalog.deregisterAllCollectionsAndViews.lookupNSSByUUID uuid =
      some coll.nss := by
  refine ⟨rfl, Nat.le_refl _, Nat.le_succ _, ?_, ?_, ?_, ?_, ?_, ?_, Nat.le_refl _, ?_⟩
  · intro u c2 ts
    cases ts <;>
      simp [CollectionCatalog.registerCollection,
        CollectionCatalog.pushCatalogIdForNSSAndUUID, CollectionCatalog.getEpoch]
  · intro u c2 ts
    simp [CollectionCatalog.registerCollectionTwoPhase, CollectionCatalog.getEpoch]
  · intro u c2 ts
    cases ts <;>
      simp [CollectionCatalog.publishCollectionTwoPhase,
        CollectionCatalog.pushCatalogIdForNSSAndUUID, CollectionCatalog.getEpoch]
  · intro u dp ts
    cases hcase : cat.catalog u with
    | none => simp [CollectionCatalog.deregisterCollection, hcase, CollectionCatalog.getEpoch]
    | some c3 =>
      cases ts <;>
        simp [CollectionCatalog.deregisterCollection, hcase,
          CollectionCatalog.pushCatalogIdForNSSAndUUID, CollectionCatalog.getEpoch]
  · intro c2 nfrom ts
    cases ts <;>
      simp [CollectionCatalog.onCollectionRename,
        CollectionCatalog.pushCatalogIdForRename, CollectionCatalog.getEpoch]
  · intro oldest
    simp [CollectionCatalog.cleanupForOldestTimestampAdvanced, CollectionCatalog.getEpoch]
  · simp [CollectionCatalog.onCloseCatalog,
      CollectionCatalog.deregisterAllCollectionsAndViews,
      CollectionCatalog.lookupNSSByUUID, hc]

/-- Concrete catalog used by the close/open witness: UUID 1 is committed
with the sample descriptor. -/
def sampleCommittedCatalog : CollectionCatalog :=
  { emptyCatalog with catalog := upd emptyCatalog.catalog 1 (some sampleCollection) }

/-- Witness for C7 at a concrete run: close then open bumps the epoch from 0
to 1, and the closed-state shadow still resolves UUID 1 after the primary
maps are emptied. -/
theorem c7_close_open_epoch_shadow_witness :
    sampleCommittedCatalog.onCloseCatalog.onOpenCatalog.getEpoch =
      sampleCommittedCatalog.getEpoch + 1 ∧
    sampleCommittedCatalog.onCloseCatalog.deregisterAllCollectionsAndViews.lookupNSSByUUID
        1 = some { db := "db", coll := "c" } := by
  have h := c7_close_open_epoch_shadow sampleCommittedCatalog 1 sampleCollection
    (by unfold sampleCommittedCatalog emptyCatalog upd; simp)
  exact ⟨h.1, h.2.2.2.2.2.2.2.2.2.2⟩

/-- C8: lookups do not fail for absence: a UUID or namespace that is in
neither the authoritative maps nor the pending overlay makes
`lookupCollectionByUUID` / `lookupCollectionByNamespace` return nothing
(they are total functions into an option), while
`resolveNamespaceStringOrUUID` raises NamespaceNotFound exactly when a UUID
cannot be resolved to a name or resolves to a namespace in a database other
than the expected one. -/
theorem c8_lookup_absent_and_resolve (cat : CollectionCatalog) (b : Bool)
    (uuid : UUID) (nss : NamespaceString)
    (hu1 : cat.catalog uuid = none) (hu2 : cat.pendingCommitUUIDs uuid = none)
    (hn1 : cat.collections nss = none) (hn2 : cat.pendingCommitNamespaces nss = none) :
    cat.lookupCollectionByUUID b uuid = none ∧
    cat.lookupCollectionByNamespace b nss = none ∧
    (∀ dbName u2,
      cat.resolveNamespaceStringOrUUID (NamespaceStringOrUUID.byUUID dbName u2) =
          Except.error ErrorCodes.NamespaceNotFound ↔
        (cat.lookupNSSByUUID u2 = none ∨
         ∃ rnss, cat.lookupNSSByUUID u2 = some rnss ∧ rnss.db ≠ dbName)) ∧
    (∀ nss2, cat.resolveNamespaceStringOrUUID (NamespaceStringOrUUID.byName nss2) =
      Except.ok nss2) := by
  refine ⟨?_, ?_, ?_, ?_⟩
  · simp [CollectionCatalog.lookupCollectionByUUID, hu1, hu2]
  · simp [CollectionCatalog.lookupCollectionByNamespace, hn1, hn2]
  · intro dbName u2
    cases hres : cat.lookupNSSByUUID u2 with
    | none => simp [CollectionCatalog.resolveNamespaceStringOrUUID, hres]
    | some rnss =>
      by_cases hdb : rnss.db = dbName
      · simp [CollectionCatalog.resolveNamespaceStringOrUUID, hres, hdb]
      · simp [CollectionCatalog.resolveNamespaceStringOrUUID, hres, hdb]
  · intro nss2
    simp [CollectionCatalog.resolveNamespaceStringOrUUID]

/-- Witness for C8 at a concrete catalog: UUID 2 and namespace db.other are
absent from the sample committed catalog, lookups return nothing, and
resolving UUID 1 against the wrong expected database raises
NamespaceNotFound. -/
theorem c8_lookup_absent_and_resolve_witness :
    sampleCommittedCatalog.lookupCollectionByUUID true 2 = none ∧
    sampleCommittedCatalog.resolveNamespaceStringOrUUID
        (NamespaceStringOrUUID.byUUID "otherdb" 1) =
      Except.error ErrorCodes.NamespaceNotFound := by
  have h := c8_lookup_absent_and_resolve sampleCommittedCatalog true 2
    { db := "db", coll := "other" }
    (by unfold sampleCommittedCatalog emptyCatalog upd; simp)
    (by unfold sampleCommittedCatalog emptyCatalog upd; simp)
    (by unfold sampleCommittedCatalog emptyCatalog upd; simp)
    (by unfold sampleCommittedCatalog emptyCatalog upd; simp)
  refine ⟨h.1, ?_⟩
  refine (h.2.2.1 "otherdb" 1).mpr (Or.inr ⟨{ db := "db", coll := "c" }, ?_, by decide⟩)
  unfold sampleCommittedCatalog emptyCatalog upd CollectionCatalog.lookupNSSByUUID
  simp [sampleCollection]

/-- C10: enumerating an unknown database succeeds with an empty result:
when no entry of the ordered per-database map carries the requested
database name, `getAllCollectionUUIDsFromDb` and
`getAllCollectionNamesFromDb` both return the empty vector. -/
theorem c10_unknown_db_enumeration (cat : CollectionCatalog) (dbName : DatabaseName)
    (h : ∀ e ∈ cat.orderedCollections, e.1.1 ≠ dbName) :
    cat.getAllCollectionUUIDsFromDb dbName = [] ∧
    cat.getAllCollectionNamesFromDb dbName = [] := by
  have hf : List.filter (fun e => decide (e.1.1 = dbName)) cat.orderedCollections
      = [] := by
    rw [List.filter_eq_nil_iff]
    intro a ha
    simpa using h a ha
  exact ⟨by simp [CollectionCatalog.getAllCollectionUUIDsFromDb, hf],
         by simp [CollectionCatalog.getAllCollectionNamesFromDb, hf]⟩

/-- Witness for C10 at a concrete catalog: the sample committed catalog has
no entries for database nosuchdb, and both enumerations are empty. -/
theorem c10_unknown_db_enumeration_witness :
    sampleCommittedCatalog.getAllCollectionUUIDsFromDb "nosuchdb" = [] ∧
    sampleCommittedCatalog.getAllCollectionNamesFromDb "nosuchdb" = [] :=
  c10_unknown_db_enumeration sampleCommittedCatalog "nosuchdb"
    (by unfold sampleCommittedCatalog emptyCatalog; simp)

/-- Two adjacent history entries are permitted unless both are drops. -/
def notBothDrops (a b : TimestampedCatalogId) : Prop := a.id ≠ none ∨ b.id ≠ none

/-- A history vector never has a drop entry immediately followed by another
drop entry. -/
def noAdjacentDrops (v : List TimestampedCatalogId) : Prop :=
  List.Chain' notBothDrops v

/-- Shape of a UUID history vector: empty, a single create, or a create
followed by a drop (at most two entries, since UUIDs are never reused). -/
def uuidShapeOk : List TimestampedCatalogId → Bool
  | [] => true
  | [e] => e.id.isSome
  | [c, d] => c.id.isSome && d.id.isNone
  | _ => false

/-- Per-namespace history invariant: strictly time-ordered and without
adjacent drops. -/
def nssHistOk (v : List TimestampedCatalogId) : Prop :=
  ordered v ∧ noAdjacentDrops v

/-- Per-UUID history invariant: strictly time-ordered, without adjacent
drops, of create/drop shape, and with at most two entries. -/
def uuidHistOk (v : List TimestampedCatalogId) : Prop :=
  ordered v ∧ noAdjacentDrops v ∧ uuidShapeOk v = true ∧ v.length ≤ 2

/-- History invariant of the whole catalog (claim C4): every namespace
history and every UUID history satisfies its per-vector invariant. -/
def histInvariant (cat : CollectionCatalog) : Prop :=
  (∀ nss, nssHistOk (cat.nssCatalogIds nss)) ∧
  (∀ u, uuidHistOk (cat.uuidCatalogIds u))

/-- Pushes at `some t` are legal only above every existing entry of the
vector (writers are serialized and timestamps strictly increase per key); a
`none` timestamp is always legal since the push is a no-op. -/
def canPushAt (ts : Option Timestamp) (v : List TimestampedCatalogId) : Prop :=
  ∀ t, ts = some t → ∀ e ∈ v, e.ts < t

/-- The vector's last entry is a create. -/
def endsInCreate (v : List TimestampedCatalogId) : Prop :=
  ∃ e, v.getLast? = some e ∧ e.id ≠ none

/-- Legality of `registerCollection` for the history maps: the UUID is
fresh (never reused) and the namespace history is pushed above all its
entries. -/
def registerLegal (cat : CollectionCatalog) (uuid : UUID) (coll : Collection)
    (ts : Option Timestamp) : Prop :=
  cat.uuidCatalogIds uuid = [] ∧ canPushAt ts (cat.nssCatalogIds coll.nss)

/-- Legality of `deregisterCollection` for the history maps: whenever the
UUID is actually registered, both affected histories currently end in a
create (the collection exists) and are pushed above all their entries. -/
def deregisterLegal (cat : CollectionCatalog) (uuid : UUID)
    (ts : Option Timestamp) : Prop :=
  ∀ coll, cat.catalog uuid = some coll →
    endsInCreate (cat.uuidCatalogIds uuid) ∧
    endsInCreate (cat.nssCatalogIds coll.nss) ∧
    canPushAt ts (cat.uuidCatalogIds uuid) ∧
    canPushAt ts (cat.nssCatalogIds coll.nss)

/-- Legality of `onCollectionRename` for the history maps: source and
target namespaces differ, the source history ends in a create, and both
histories are pushed above all their entries. -/
def renameLegal (cat : CollectionCatalog) (coll : Collection)
    (fromCollection : NamespaceString) (ts : Option Timestamp) : Prop :=
  fromCollection ≠ coll.nss ∧
  endsInCreate (cat.nssCatalogIds fromCollection) ∧
  canPushAt ts (cat.nssCatalogIds fromCollection) ∧
  canPushAt ts (cat.nssCatalogIds coll.nss)

/-- Appending an entry later than every existing entry keeps a vector
strictly ordered. -/
theorem ordered_append_single {v : List TimestampedCatalogId}
    {i : Option RecordId} {t : Timestamp} (hv : ordered v)
    (hlt : ∀ e ∈ v, e.ts < t) : ordered (v ++ [{ id := i, ts := t }]) := by
  unfold ordered at hv ⊢
  rw [List.pairwise_append]
  refine ⟨hv, List.pairwise_singleton _ _, ?_⟩
  intro a ha b hb
  simp only [List.mem_singleton] at hb
  subst hb
  exact hlt a ha

/-- Appending an entry that does not form a drop-drop pair with the last
entry keeps a vector free of adjacent drops. -/
theorem noAdjacentDrops_append_single {v : List TimestampedCatalogId}
    {i : Option RecordId} {t : Timestamp} (hv : noAdjacentDrops v)
    (hlast : ∀ last, v.getLast? = some last →
      notBothDrops last { id := i, ts := t }) :
    noAdjacentDrops (v ++ [{ id := i, ts := t }]) := by
  unfold noAdjacentDrops at hv ⊢
  rw [List.chain'_append]
  refine ⟨hv, List.chain'_singleton _, ?_⟩
  intro x hx y hy
  simp only [List.head?_cons, Option.mem_def, Option.some.injEq] at hy
  subst hy
  exact hlast x hx

/-- A UUID history of legal shape has at most two entries. -/
theorem uuidShapeOk_length {v : List TimestampedCatalogId}
    (h : uuidShapeOk v = true) : v.length ≤ 2 := by
  match v with
  | [] => simp
  | [_] => simp
  | [_, _] => simp
  | _ :: _ :: _ :: _ => simp [uuidShapeOk] at h

/-- A UUID history of legal shape that ends in a create is a single create
entry. -/
theorem uuidShapeOk_single_of_endsInCreate {v : List TimestampedCatalogId}
    (hs : uuidShapeOk v = true) (he : endsInCreate v) :
    ∃ c, v = [c] ∧ c.id ≠ none := by
  match v with
  | [] =>
    obtain ⟨e, he1, _⟩ := he
    simp at he1
  | [a] =>
    refine ⟨a, rfl, ?_⟩
    simpa [uuidShapeOk, Option.isSome_iff_ne_none] using hs
  | [a, b] =>
    obtain ⟨e, he1, he2⟩ := he
    simp [List.getLast?] at he1
    subst he1
    simp [uuidShapeOk, Option.isNone_iff_eq_none] at hs
    exact absurd hs.2 he2
  | _ :: _ :: _ :: _ => simp [uuidShapeOk] at hs

/-- Cleanup of one history vector always yields a suffix of the vector. -/
theorem cleanupVector_eq_drop (oldest : Timestamp)
    (v : List TimestampedCatalogId) :
    ∃ n, cleanupVector oldest v = v.drop n := by
  unfold cleanupVector
  cases hl : v.getLast? with
  | none => exact ⟨0, by simp [List.getLast?_eq_none_iff.mp hl]⟩
  | some last =>
    by_cases hc : last.id = none ∧ last.ts < oldest
    · exact ⟨v.length, by simp [hc, List.drop_length]⟩
    · exact ⟨v.length - max 2 (v.countP (fun e => decide (oldest ≤ e.ts))), by simp [hc]⟩

/-- Cleanup of a vector with at most two entries either keeps it unchanged
or removes it entirely. -/
theorem cleanupVector_self_or_nil {oldest : Timestamp}
    {v : List TimestampedCatalogId} (hlen : v.length ≤ 2) :
    cleanupVector oldest v = v ∨ cleanupVector oldest v = [] := by
  unfold cleanupVector
  cases hl : v.getLast? with
  | none => exact Or.inr rfl
  | some last =>
    by_cases hc : last.id = none ∧ last.ts < oldest
    · exact Or.inr (by simp [hc])
    · left
      have hz : v.length - max 2 (v.countP (fun e => decide (oldest ≤ e.ts))) = 0 :=
        Nat.sub_eq_zero_of_le (Nat.le_trans hlen (Nat.le_max_left _ _))
      simp [hc, hz]

/-- Cleanup preserves the per-namespace history invariant. -/
theorem nssHistOk_cleanupVector {oldest : Timestamp}
    {v : List TimestampedCatalogId} (hv : nssHistOk v) :
    nssHistOk (cleanupVector oldest v) := by
  obtain ⟨n, hn⟩ := cleanupVector_eq_drop oldest v
  rw [hn]
  exact ⟨List.Pairwise.sublist (List.drop_sublist n v) hv.1, hv.2.drop n⟩

/-- Cleanup preserves the per-UUID history invariant. -/
theorem uuidHistOk_cleanupVector {oldest : Timestamp}
    {v : List TimestampedCatalogId} (hv : uuidHistOk v) :
    uuidHistOk (cleanupVector oldest v) := by
  rcases @cleanupVector_self_or_nil oldest v hv.2.2.2 with h | h
  · rw [h]; exact hv
  · rw [h]
    exact ⟨List.Pairwise.nil, List.chain'_nil, rfl, by simp⟩

/-- Pushing a catalog id above all existing entries preserves the history
invariant, provided the new entry does not form a drop-drop pair and the
UUID vector keeps its create/drop shape. -/
theorem histInvariant_push (cat : CollectionCatalog) (nss : NamespaceString)
    (uuid : UUID) (cid : Option RecordId) (ts : Option Timestamp)
    (hInv : histInvariant cat)
    (hnssTs : canPushAt ts (cat.nssCatalogIds nss))
    (huuidTs : canPushAt ts (cat.uuidCatalogIds uuid))
    (hnssDrop : ∀ t, ts = some t → ∀ last, (cat.nssCatalogIds nss).getLast? = some last →
      notBothDrops last { id := cid, ts := t })
    (huuidDrop : ∀ t, ts = some t → ∀ last, (cat.uuidCatalogIds uuid).getLast? = some last →
      notBothDrops last { id := cid, ts := t })
    (hshape : ∀ t, ts = some t →
      uuidShapeOk (cat.uuidCatalogIds uuid ++ [{ id := cid, ts := t }]) = true) :
    histInvariant (cat.pushCatalogIdForNSSAndUUID nss uuid cid ts) := by
  cases ts with
  | none => exact hInv
  | some t =>
    constructor
    · intro x
      show nssHistOk
        (upd cat.nssCatalogIds nss (cat.nssCatalogIds nss ++ [{ id := cid, ts := t }]) x)
      unfold upd
      by_cases hx : x = nss
      · rw [if_pos hx]
        exact ⟨ordered_append_single (hInv.1 nss).1 (hnssTs t rfl),
               noAdjacentDrops_append_single (hInv.1 nss).2 (hnssDrop t rfl)⟩
      · rw [if_neg hx]
        exact hInv.1 x
    · intro u
      show uuidHistOk
        (upd cat.uuidCatalogIds uuid (cat.uuidCatalogIds uuid ++ [{ id := cid, ts := t }]) u)
      unfold upd
      by_cases hu : u = uuid
      · rw [if_pos hu]
        have hshape2 := hshape t rfl
        exact ⟨ordered_append_single (hInv.2 uuid).1 (huuidTs t rfl),
               noAdjacentDrops_append_single (hInv.2 uuid).2.1 (huuidDrop t rfl),
               hshape2, uuidShapeOk_length hshape2⟩
      · rw [if_neg hu]
        exact hInv.2 u

/-- C4: the history-vector invariant — strict time-ordering of every
non-empty history vector, no drop entry immediately followed by another
drop for the same key, and at most two entries (one create, one drop) per
UUID history — is preserved by `registerCollection`,
`deregisterCollection`, `onCollectionRename` and
`cleanupForOldestTimestampAdvanced`, under the operations' legality
preconditions (serialized writers push strictly increasing timestamps,
UUIDs are never reused, and the affected collection is live when dropped or
renamed). -/
theorem c4_history_invariant_preserved (cat : CollectionCatalog)
    (hInv : histInvariant cat) :
    (∀ uuid coll ts, registerLegal cat uuid coll ts →
      histInvariant (cat.registerCollection uuid coll ts)) ∧
    (∀ uuid dp ts, deregisterLegal cat uuid ts →
      histInvariant ((cat.deregisterCollection uuid dp ts).1)) ∧
    (∀ coll fromCollection ts, renameLegal cat coll fromCollection ts →
      histInvariant (cat.onCollectionRename coll fromCollection ts)) ∧
    (∀ oldest, histInvariant (cat.cleanupForOldestTimestampAdvanced oldest)) := by
  refine ⟨?_, ?_, ?_, ?_⟩
  · -- registerCollection
    intro uuid coll ts hLegal
    obtain ⟨hfresh, hnssTs⟩ := hLegal
    refine histInvariant_push _ coll.nss uuid (some coll.catalogId) ts hInv hnssTs ?_ ?_ ?_ ?_
    · intro t _ e he
      rw [hfresh] at he
      cases he
    · intro t _ last _
      exact Or.inr (by simp)
    · intro t _ last hlast
      exact Or.inr (by simp)
    · intro t _
      rw [hfresh]
      simp [uuidShapeOk]
  · -- deregisterCollection
    intro uuid dp ts hLegal
    cases hcase : cat.catalog uuid with
    | none =>
      show histInvariant (cat.deregisterCollection uuid dp ts).1
      unfold CollectionCatalog.deregisterCollection
      rw [hcase]
      exact hInv
    | some coll =>
      obtain ⟨huc, hnc, huTs, hnTs⟩ := hLegal coll hcase
      show histInvariant (cat.deregisterCollection uuid dp ts).1
      unfold CollectionCatalog.deregisterCollection
      rw [hcase]
      refine histInvariant_push _ coll.nss uuid none ts hInv hnTs huTs ?_ ?_ ?_
      · intro t _ last hlast
        obtain ⟨e, he1, he2⟩ := hnc
        rw [hlast] at he1
        cases he1
        exact Or.inl he2
      · intro t _ last hlast
        obtain ⟨e, he1, he2⟩ := huc
        rw [hlast] at he1
        cases he1
        exact Or.inl he2
      · intro t _
        obtain ⟨c, hc1, hc2⟩ := uuidShapeOk_single_of_endsInCreate (hInv.2 uuid).2.2.1 huc
        rw [hc1]
        simp [uuidShapeOk, Option.isSome_iff_ne_none, hc2]
  · -- onCollectionRename
    intro coll fromCollection ts hLegal
    obtain ⟨hne, hfc, hfTs, htTs⟩ := hLegal
    cases ts with
    | none => exact hInv
    | some t =>
      obtain ⟨laste, hlaste, hlastid⟩ := hfc
      constructor
      · intro x
        show nssHistOk
          (if x = coll.nss then
            cat.nssCatalogIds coll.nss ++
              [{ id := ((cat.nssCatalogIds fromCollection).getLast?).bind (fun e => e.id),
                 ts := t }]
          else if x = fromCollection then
            cat.nssCatalogIds fromCollection ++ [{ id := none, ts := t }]
          else cat.nssCatalogIds x)
        by_cases hx1 : x = coll.nss
        · rw [if_pos hx1]
          have hmoved : ((cat.nssCatalogIds fromCollection).getLast?).bind (fun e => e.id) ≠
              none := by
            rw [hlaste]
            simpa using hlastid
          exact ⟨ordered_append_single (hInv.1 coll.nss).1 (htTs t rfl),
                 noAdjacentDrops_append_single (hInv.1 coll.nss).2
                   (fun last _ => Or.inr hmoved)⟩
        · rw [if_neg hx1]
          by_cases hx2 : x = fromCollection
          · rw [if_pos hx2]
            refine ⟨ordered_append_single (hInv.1 fromCollection).1 (hfTs t rfl),
                   noAdjacentDrops_append_single (hInv.1 fromCollection).2 ?_⟩
            intro last hlast
            rw [hlaste] at hlast
            cases hlast
            exact Or.inl hlastid
          · rw [if_neg hx2]
            exact hInv.1 x
      · intro u
        exact hInv.2 u
  · -- cleanupForOldestTimestampAdvanced
    intro oldest
    exact ⟨fun x => nssHistOk_cleanupVector (hInv.1 x),
           fun u => uuidHistOk_cleanupVector (hInv.2 u)⟩

/-- Witness for C4 at a concrete run: registering UUID 1 at time 10 into
the empty catalog preserves the history invariant. -/
theorem c4_history_invariant_preserved_witness :
    histInvariant (emptyCatalog.registerCollection 1 sampleCollection (some 10)) :=
  (c4_history_invariant_preserved emptyCatalog
      ⟨fun _ => ⟨List.Pairwise.nil, List.chain'_nil⟩,
       fun _ => ⟨List.Pairwise.nil, List.chain'_nil, rfl, Nat.zero_le 2⟩⟩).1
    1 sampleCollection (some 10)
    ⟨rfl, fun _ _ e he => absurd he (List.not_mem_nil e)⟩

/-- Batched execution distributes over list append: the second half of the
batch runs from the state the first half produced, and the per-job error
reports concatenate. -/
theorem writeBatch_append {ε : Type} (cat : CollectionCatalog)
    (xs ys : List (CatalogWriteFn ε)) :
    writeBatch cat (xs ++ ys) =
      ((writeBatch (writeBatch cat xs).1 ys).1,
       (writeBatch cat xs).2 ++ (writeBatch (writeBatch cat xs).1 ys).2) := by
  induction xs generalizing cat with
  | nil => simp [writeBatch]
  | cons j rest ih =>
    cases hj : j cat with
    | ok c2 => simp [writeBatch, hj, ih]
    | error e => simp [writeBatch, hj, ih]

/-- C6: in a batch of write jobs, a job that throws leaves the published
catalog exactly as if that job had never run — the final catalog equals the
one produced by the batch with the job removed — while its exception is
propagated to its submitter slot and all other jobs of the batch are still
applied. -/
theorem c6_write_job_failure_atomicity {ε : Type} (cat : CollectionCatalog)
    (pre post : List (CatalogWriteFn ε)) (j : CatalogWriteFn ε) (e : ε)
    (hfail : j (writeBatch cat pre).1 = Except.error e) :
    (writeBatch cat (pre ++ j :: post)).1 = (writeBatch cat (pre ++ post)).1 ∧
    (writeBatch cat (pre ++ j :: post)).2 =
      (writeBatch cat pre).2 ++
        some e :: (writeBatch (writeBatch cat pre).1 post).2 := by
  have h1 := writeBatch_append cat pre (j :: post)
  have h2 := writeBatch_append cat pre post
  constructor
  · rw [h1, h2]
    simp [writeBatch, hfail]
  · rw [h1]
    simp [writeBatch, hfail]

/-- Write job that always throws error 7, used by the C6 witness. -/
def failingJob : CatalogWriteFn Nat := fun _ => Except.error 7

/-- Write job that succeeds without mutating the catalog, used by the C6
witness. -/
def identityJob : CatalogWriteFn Nat := fun c => Except.ok c

/-- Witness for C6 at a concrete batch: a first job that throws error 7
leaves the catalog to the second (successful) job alone, and the error
report carries the exception in the failing job's slot. -/
theorem c6_write_job_failure_atomicity_witness :
    (writeBatch emptyCatalog
        (([] : List (CatalogWriteFn Nat)) ++ failingJob :: [identityJob])).1 =
      (writeBatch emptyCatalog
        (([] : List (CatalogWriteFn Nat)) ++ [identityJob])).1 ∧
    (writeBatch emptyCatalog
        (([] : List (CatalogWriteFn Nat)) ++ failingJob :: [identityJob])).2 =
      (writeBatch emptyCatalog ([] : List (CatalogWriteFn Nat))).2 ++
        some 7 :: (writeBatch (writeBatch emptyCatalog
          ([] : List (CatalogWriteFn Nat))).1 [identityJob]).2 :=
  c6_write_job_failure_atomicity emptyCatalog [] [identityJob] failingJob 7 rfl

/-- Counterexample to C9 as stated: not every existing ProfileSettings
value satisfies 0 ≤ level ≤ 2.  The header also declares
`ProfileSettings() = default`, which leaves the `int level` member
uninitialized, so a default-constructed value can hold the out-of-range
level 5. -/
theorem c9_profile_level_counterexample :
    ¬ (0 ≤ (ProfileSettings.defaultConstructed 5).level ∧
       (ProfileSettings.defaultConstructed 5).level ≤ 2) := by decide

/-- C9 (amended): the checking constructor fails with InvalidProfileLevel
for every level outside 0..2, succeeds for every level in 0..2 storing
level and filter unchanged, and every ProfileSettings value it produces
satisfies 0 ≤ level ≤ 2; default-constructed values carry an indeterminate
level and are exempt. -/
theorem c9_profile_level_checked (level : Int) (filter : Option Nat) :
    (¬ (0 ≤ level ∧ level ≤ 2) →
      ProfileSettings.make level filter = Except.error ErrorCodes.InvalidProfileLevel) ∧
    ((0 ≤ level ∧ level ≤ 2) →
      ProfileSettings.make level filter = Except.ok { level := level, filter := filter }) ∧
    (∀ ps, ProfileSettings.make level filter = Except.ok ps →
      ps.level = level ∧ ps.filter = filter ∧ 0 ≤ ps.level ∧ ps.level ≤ 2) := by
  refine ⟨?_, ?_, ?_⟩
  · intro h
    simp [ProfileSettings.make, h]
  · intro h
    simp [ProfileSettings.make, h]
  · intro ps hps
    unfold ProfileSettings.make at hps
    by_cases h : 0 ≤ level ∧ level ≤ 2
    · rw [if_pos h] at hps
      injection hps with hps2
      subst hps2
      exact ⟨rfl, rfl, h.1, h.2⟩
    · rw [if_neg h] at hps
      simp at hps

/-- Witness for C9 (amended) at concrete levels: level 5 is rejected with
InvalidProfileLevel and level 2 is accepted unchanged. -/
theorem c9_profile_level_checked_witness :
    ProfileSettings.make 5 none = Except.error ErrorCodes.InvalidProfileLevel ∧
    ProfileSettings.make 2 (some 4) = Except.ok { level := 2, filter := some 4 } :=
  ⟨(c9_profile_level_checked 5 none).1 (by decide),
   (c9_profile_level_checked 2 (some 4)).2.1 (by decide)⟩
